import Mathlib

/-!
Verification of the photo-haven ownership and membership model.

The relational state (tables `profiles`, `photos`, `albums`, `album_photos`
with their constraints, row-level-security policies and the signup trigger)
is embedded from the SQL schema; the operations are embedded from the page
handlers (`Home.handleDelete`, `Albums.handleCreate`, `Albums.handleDelete`,
`Albums.loadAlbums`, `AlbumDetail.loadAlbumData`, `AlbumDetail.handleAddPhotos`)
together with the database semantics of the statements they issue:
an INSERT is a single atomic statement that fails whole on any constraint
or policy violation, a DELETE matching zero rows succeeds silently, foreign
keys with ON DELETE CASCADE / SET NULL fire on row deletion, and foreign-key
checks are not subject to row-level security.
-/

/-- Database-level failures surfaced to the client through the supabase
error channel.  `notFound` is the PostgREST error produced by `.single()`
when not exactly one row matches; plain inserts and deletes never raise it. -/
inductive DbError where
  | rlsViolation
  | fkViolation
  | uniqueViolation
  | notFound
deriving DecidableEq

/-- Row of `public.photos`.  Timestamps are modelled as naturals. -/
structure Photo where
  id : Nat
  user_id : Nat
  url : String
  title : Option String
  description : Option String
  created_at : Nat
deriving DecidableEq

/-- Row of `public.albums`. -/
structure Album where
  id : Nat
  user_id : Nat
  name : String
  description : Option String
  cover_photo_id : Option Nat
  created_at : Nat
deriving DecidableEq

/-- Row of `public.album_photos`, the membership join table with
primary key (album_id, photo_id). -/
structure AlbumPhoto where
  album_id : Nat
  photo_id : Nat
  added_at : Nat
deriving DecidableEq

/-- Row of `public.profiles`; `user_id` carries a UNIQUE constraint. -/
structure ProfileRow where
  id : Nat
  user_id : Nat
  display_name : Option String
  avatar_url : Option String
deriving DecidableEq

/-- Row of `auth.users`, the external identity table the signup trigger
fires on. -/
structure AuthUser where
  id : Nat
  email : String
deriving DecidableEq

/-- The relational state: one list of rows per table, in insertion order
(Postgres returns rows of these small tables in table order when the query
specifies no ORDER BY, and every insert in this codebase appends). -/
structure DB where
  users : List AuthUser
  profiles : List ProfileRow
  photos : List Photo
  albums : List Album
  album_photos : List AlbumPhoto
deriving DecidableEq

/-- Insert `a` into a list assumed ordered by `le`, keeping it ordered. -/
def insertBy (le : α → α → Bool) (a : α) : List α → List α
  | [] => [a]
  | b :: bs => if le a b then a :: b :: bs else b :: insertBy le a bs

/-- Stable sort by the boolean relation `le`; models an ORDER BY clause. -/
def sortBy (le : α → α → Bool) : List α → List α
  | [] => []
  | a :: as => insertBy le a (sortBy le as)

theorem mem_insertBy (le : α → α → Bool) (a : α) (l : List α) (b : α) :
    b ∈ insertBy le a l ↔ b = a ∨ b ∈ l := by
  induction l with
  | nil => simp [insertBy]
  | cons c cs ih =>
      simp only [insertBy]
      split
      · simp
      · simp only [List.mem_cons, ih]
        tauto

theorem mem_sortBy (le : α → α → Bool) (l : List α) (b : α) :
    b ∈ sortBy le l ↔ b ∈ l := by
  induction l with
  | nil => simp [sortBy]
  | cons c cs ih => simp [sortBy, mem_insertBy, ih]

theorem pairwise_insertBy (le : α → α → Bool)
    (total : ∀ x y, le x y = true ∨ le y x = true)
    (trans : ∀ x y z, le x y = true → le y z = true → le x z = true)
    (a : α) (l : List α) (h : l.Pairwise (fun x y => le x y = true)) :
    (insertBy le a l).Pairwise (fun x y => le x y = true) := by
  induction l with
  | nil => simp [insertBy]
  | cons c cs ih =>
      simp only [insertBy]
      rcases List.pairwise_cons.mp h with ⟨hc, hcs⟩
      split
      · rename_i hle
        refine List.pairwise_cons.mpr ⟨?_, h⟩
        intro x hx
        rcases List.mem_cons.mp hx with rfl | hx
        · exact hle
        · exact trans a c x hle (hc x hx)
      · rename_i hnle
        have hca : le c a = true := by
          rcases total a c with hac | hca
          · exact absurd hac hnle
          · exact hca
        refine List.pairwise_cons.mpr ⟨?_, ih hcs⟩
        intro x hx
        rcases (mem_insertBy le a cs x).mp hx with rfl | hx
        · exact hca
        · exact hc x hx

theorem pairwise_sortBy (le : α → α → Bool)
    (total : ∀ x y, le x y = true ∨ le y x = true)
    (trans : ∀ x y z, le x y = true → le y z = true → le x z = true)
    (l : List α) :
    (sortBy le l).Pairwise (fun x y => le x y = true) := by
  induction l with
  | nil => simp [sortBy]
  | cons c cs ih => exact pairwise_insertBy le total trans c (sortBy le cs) ih

/-- Row-level-security predicate of the `album_photos` policies: the
referenced album exists and belongs to the caller.  This is the only
check the policies make — the photo's owner is never consulted. -/
def ownsAlbum (db : DB) (userId albumId : Nat) : Prop :=
  ∃ a ∈ db.albums, a.id = albumId ∧ a.user_id = userId

instance (db : DB) (userId albumId : Nat) :
    Decidable (ownsAlbum db userId albumId) := by
  unfold ownsAlbum
  infer_instance

/-- Foreign-key check of `album_photos.photo_id`: the photo row exists
(foreign-key validation ignores row-level security). -/
def photoExists (db : DB) (photoId : Nat) : Prop :=
  ∃ p ∈ db.photos, p.id = photoId

instance (db : DB) (photoId : Nat) : Decidable (photoExists db photoId) := by
  unfold photoExists
  infer_instance

/-- The pair (albumId, photoId) is present in the membership table. -/
def isMember (db : DB) (albumId photoId : Nat) : Prop :=
  ∃ ap ∈ db.album_photos, ap.album_id = albumId ∧ ap.photo_id = photoId

instance (db : DB) (albumId photoId : Nat) :
    Decidable (isMember db albumId photoId) := by
  unfold isMember
  infer_instance

/-- `Home.loadPhotos`: the caller's own photos (photos RLS restricts the
select to rows with `user_id = auth.uid()`), ordered by `created_at`
descending as the query requests. -/
def loadPhotos (db : DB) (userId : Nat) : List Photo :=
  sortBy (fun x y => decide (y.created_at ≤ x.created_at))
    (db.photos.filter (fun p => decide (p.user_id = userId)))

/-- The album-photos listing of `AlbumDetail.loadAlbumData`: the
`album_photos` rows of the album (visible only when the caller owns the
album), in table order — the query specifies no ORDER BY — with the
embedded `photos(id, url, title)` resource resolved under the photos
row-level security (only the caller's own photo rows are visible; a
member photo the caller cannot see comes back null and is dropped by
`filter(Boolean)`). -/
def listAlbumPhotos (db : DB) (userId albumId : Nat) : List Photo :=
  (db.album_photos.filter
      (fun ap => decide (ap.album_id = albumId ∧ ownsAlbum db userId ap.album_id))).filterMap
    (fun ap => db.photos.find? (fun p => decide (p.id = ap.photo_id ∧ p.user_id = userId)))

/-- The available-photos computation of `AlbumDetail.loadAlbumData`: all of
the caller's photos whose id is not among the ids of the album's listed
member photos. -/
def listAvailablePhotosForAlbum (db : DB) (userId albumId : Nat) : List Photo :=
  let photosInAlbum := (listAlbumPhotos db userId albumId).map Photo.id
  (db.photos.filter (fun p => decide (p.user_id = userId))).filter
    (fun p => decide (p.id ∉ photosInAlbum))

/-- The urls of an album's member photos as loaded by `Albums.loadAlbums`
through the embedded `album_photos(photos(url))` select: membership rows in
table order, joined photo rows restricted by row-level security, nulls
dropped. -/
def memberUrls (db : DB) (userId albumId : Nat) : List String :=
  (db.album_photos.filter
      (fun ap => decide (ap.album_id = albumId ∧ ownsAlbum db userId ap.album_id))).filterMap
    (fun ap =>
      (db.photos.find? (fun p => decide (p.id = ap.photo_id ∧ p.user_id = userId))).map
        Photo.url)

/-- One album as rendered by the `Albums` page: the row plus the list of
member-photo urls produced by the embedded select. -/
structure AlbumView where
  album : Album
  photoUrls : List String
deriving DecidableEq

/-- `Albums.loadAlbums`: the caller's albums ordered by `created_at`
descending, each carrying the member-photo urls of its embedded select. -/
def loadAlbums (db : DB) (userId : Nat) : List AlbumView :=
  (sortBy (fun x y => decide (y.created_at ≤ x.created_at))
      (db.albums.filter (fun a => decide (a.user_id = userId)))).map
    (fun a => ⟨a, memberUrls db userId a.id⟩)

/-- The cover image the `Albums` page displays for a card:
`album.photos[0].url` when the member list is non-empty, else the
folder placeholder (`none`).  `cover_photo_id` is not consulted. -/
def displayedCover (v : AlbumView) : Option String :=
  v.photoUrls.head?

/-- Modelled from the spec (refinement comparison only, not from the code):
the representative cover image of §4.1 `listAlbums` — the photo referenced
by `cover_photo_id` if that field is set and the photo is still a member,
else the most-recently-added member photo, else none.  Compared against
`displayedCover` of the code's `loadAlbums`. -/
def specCover (db : DB) (userId : Nat) (a : Album) : Option String :=
  let latestFirst :=
    (sortBy (fun x y => decide (y.added_at ≤ x.added_at))
        (db.album_photos.filter
          (fun ap => decide (ap.album_id = a.id ∧ ownsAlbum db userId ap.album_id)))).filterMap
      (fun ap =>
        (db.photos.find? (fun p => decide (p.id = ap.photo_id ∧ p.user_id = userId))).map
          Photo.url)
  match a.cover_photo_id with
  | some cid =>
      if isMember db a.id cid then
        (db.photos.find? (fun p => decide (p.id = cid))).map Photo.url
      else latestFirst.head?
  | none => latestFirst.head?

/-- Modelled from the spec (refinement comparison only, not from the code):
§4.1 `listAlbumPhotos` ordered by membership recency, most recently added
photo first.  Compared against the code's `listAlbumPhotos`, whose query has
no ORDER BY. -/
def specListAlbumPhotos (db : DB) (userId albumId : Nat) : List Photo :=
  (sortBy (fun x y => decide (y.added_at ≤ x.added_at))
      (db.album_photos.filter
        (fun ap => decide (ap.album_id = albumId ∧ ownsAlbum db userId ap.album_id)))).filterMap
    (fun ap => db.photos.find? (fun p => decide (p.id = ap.photo_id ∧ p.user_id = userId)))

/-- `Albums.handleCreate`: one INSERT into `albums` with
`user_id = auth.uid()`, the typed name (whatever string it is, including
the empty one — the NOT NULL constraint only rejects null) and the optional
description; `id` and `created_at` come from the column defaults.  The
insert policy `auth.uid() = user_id` is satisfied by construction; the only
failure the database can raise is a primary-key collision on the fresh id. -/
def handleCreate (db : DB) (callerId : Nat) (name : String)
    (description : Option String) (newId now : Nat) : DB × Except DbError Unit :=
  if db.albums.any (fun a => decide (a.id = newId)) then
    (db, .error .uniqueViolation)
  else
    ({ db with albums := db.albums ++ [⟨newId, callerId, name, description, none, now⟩] },
     .ok ())

/-- The row deletions `DELETE FROM albums WHERE id = albumId` performs under
the albums delete policy (only the caller's rows are affected; deleting zero
rows is not an error), together with the `album_photos.album_id`
ON DELETE CASCADE action. -/
def deleteAlbumRows (db : DB) (callerId albumId : Nat) : DB :=
  let removedIds :=
    (db.albums.filter (fun a => decide (a.id = albumId ∧ a.user_id = callerId))).map Album.id
  { db with
    albums := db.albums.filter (fun a => decide (¬ (a.id = albumId ∧ a.user_id = callerId))),
    album_photos := db.album_photos.filter (fun ap => decide (ap.album_id ∉ removedIds)) }

/-- `Albums.handleDelete`: issue the album delete; the statement succeeds
whether or not a row matched. -/
def handleDeleteAlbum (db : DB) (callerId albumId : Nat) : DB × Except DbError Unit :=
  (deleteAlbumRows db callerId albumId, .ok ())

/-- Whether an album's `cover_photo_id` references one of the photo ids
just deleted — the firing condition of the ON DELETE SET NULL action. -/
def coverHit (removedIds : List Nat) : Option Nat → Bool
  | some c => decide (c ∈ removedIds)
  | none => false

/-- The row deletions `DELETE FROM photos WHERE id = photoId` performs under
the photos delete policy (only the caller's rows are affected; deleting zero
rows is not an error), together with the `album_photos.photo_id`
ON DELETE CASCADE action and the `albums.cover_photo_id` ON DELETE SET NULL
action. -/
def deletePhotoRows (db : DB) (callerId photoId : Nat) : DB :=
  let removedIds :=
    (db.photos.filter (fun p => decide (p.id = photoId ∧ p.user_id = callerId))).map Photo.id
  { db with
    photos := db.photos.filter (fun p => decide (¬ (p.id = photoId ∧ p.user_id = callerId))),
    album_photos := db.album_photos.filter (fun ap => decide (ap.photo_id ∉ removedIds)),
    albums := db.albums.map (fun a =>
      if coverHit removedIds a.cover_photo_id then
        { a with cover_photo_id := none }
      else a) }

/-- `Home.handleDelete`: compute the blob path from the photo url, attempt
the blob-store removal with the result discarded (the call is not even
destructured), then issue the database delete.  `storageOk` stands for
whether the blob-store call succeeded; the only error channel surfaced to
the caller is the database one, and the database delete succeeds even when
no row matches. -/
def handleDelete (db : DB) (storage : List String) (callerId photoId : Nat)
    (photoUrl : String) (storageOk : Bool) : DB × List String × Except DbError Unit :=
  let path := ((photoUrl.splitOn "/photos/").drop 1).headD ""
  let storageAfter := if storageOk then storage.erase path else storage
  (deletePhotoRows db callerId photoId, storageAfter, .ok ())

/-- The per-row checks a VALUES row of the `album_photos` INSERT must pass:
the with-check of the insert policy (caller owns the referenced album), the
foreign keys (album existence is implied by the policy; photo existence is
checked with row-level security bypassed), and the primary-key uniqueness
of (album_id, photo_id).  No check involves the photo's owner. -/
def albumPhotoInsertCheck (db : DB) (callerId : Nat) (row : AlbumPhoto) :
    Option DbError :=
  if ¬ ownsAlbum db callerId row.album_id then some .rlsViolation
  else if ¬ photoExists db row.photo_id then some .fkViolation
  else if isMember db row.album_id row.photo_id then some .uniqueViolation
  else none

/-- Row-by-row processing of one multi-row INSERT into `album_photos`: the
first violated check aborts the whole statement with its error; otherwise
every row is appended. -/
def insertAlbumPhotos (callerId : Nat) : DB → List AlbumPhoto → Except DbError DB
  | db, [] => .ok db
  | db, row :: rest =>
      match albumPhotoInsertCheck db callerId row with
      | some e => .error e
      | none =>
          insertAlbumPhotos callerId
            { db with album_photos := db.album_photos ++ [row] } rest

/-- `AlbumDetail.handleAddPhotos`: an empty selection returns without
issuing anything; otherwise one INSERT of all selected (album, photo) pairs
is issued as a single atomic statement — on any error no row is inserted
and the error is reported, on success all rows are inserted. -/
def handleAddPhotos (db : DB) (callerId albumId : Nat) (selectedPhotos : List Nat)
    (now : Nat) : DB × Except DbError Unit :=
  if selectedPhotos.isEmpty then (db, .ok ())
  else
    match insertAlbumPhotos callerId db
        (selectedPhotos.map (fun pid => ⟨albumId, pid, now⟩)) with
    | .ok db2 => (db2, .ok ())
    | .error e => (db, .error e)

/-- The `handle_new_user` trigger function: insert one profile row for the
new `auth.users` row, with `display_name` set to the new user's email and
`avatar_url` left null; the UNIQUE constraint on `profiles.user_id` rejects
a second row for the same user. -/
def handle_new_user (db : DB) (u : AuthUser) (newProfileId : Nat) :
    Except DbError DB :=
  if db.profiles.any (fun pr => decide (pr.user_id = u.id)) then
    .error .uniqueViolation
  else
    .ok { db with profiles := db.profiles ++ [⟨newProfileId, u.id, some u.email, none⟩] }

/-- Account creation: the INSERT into `auth.users` (its primary key rejects
an existing id) immediately followed, in the same transaction, by the
`on_auth_user_created` AFTER INSERT trigger running `handle_new_user`; a
trigger failure aborts the whole insert. -/
def signUpUser (db : DB) (u : AuthUser) (newProfileId : Nat) :
    DB × Except DbError Unit :=
  if db.users.any (fun v => decide (v.id = u.id)) then
    (db, .error .uniqueViolation)
  else
    match handle_new_user { db with users := db.users ++ [u] } u newProfileId with
    | .ok db2 => (db2, .ok ())
    | .error e => (db, .error e)

/-- Re-authentication of an existing identity: signing in issues no INSERT
into `auth.users`, so the `on_auth_user_created` trigger does not fire and
no table changes — the only profile-creating code in the repository is that
trigger. -/
def authenticate (db : DB) (_userId : Nat) : DB :=
  db

theorem mem_listAlbumPhotos_mp (db : DB) (u A : Nat) (p : Photo)
    (h : p ∈ listAlbumPhotos db u A) :
    p ∈ db.photos ∧ p.user_id = u ∧ ownsAlbum db u A ∧ isMember db A p.id := by
  unfold listAlbumPhotos at h
  rcases List.mem_filterMap.mp h with ⟨ap, hapmem, hfind⟩
  rcases List.mem_filter.mp hapmem with ⟨hap, hcond⟩
  rcases of_decide_eq_true hcond with ⟨hA, hownap⟩
  have hpred := List.find?_some hfind
  simp only [decide_eq_true_eq] at hpred
  have hp : p ∈ db.photos := List.mem_of_find?_eq_some hfind
  refine ⟨hp, hpred.2, hA ▸ hownap, ⟨ap, hap, hA, hpred.1.symm⟩⟩

theorem mem_listAlbumPhotos_iff (db : DB) (u A : Nat)
    (hnd : (db.photos.map Photo.id).Nodup) (p : Photo) :
    p ∈ listAlbumPhotos db u A ↔
      p ∈ db.photos ∧ p.user_id = u ∧ ownsAlbum db u A ∧ isMember db A p.id := by
  constructor
  · exact mem_listAlbumPhotos_mp db u A p
  · rintro ⟨hp, hu, hown, ap, hap, hapA, happ⟩
    unfold listAlbumPhotos
    refine List.mem_filterMap.mpr ⟨ap, ?_, ?_⟩
    · exact List.mem_filter.mpr ⟨hap, decide_eq_true ⟨hapA, hapA ▸ hown⟩⟩
    · have hsome : (db.photos.find?
          (fun q => decide (q.id = ap.photo_id ∧ q.user_id = u))).isSome := by
        refine List.find?_isSome.mpr ⟨p, hp, decide_eq_true ⟨happ.symm, hu⟩⟩
      rcases Option.isSome_iff_exists.mp hsome with ⟨q, hq⟩
      have hqmem : q ∈ db.photos := List.mem_of_find?_eq_some hq
      have hqpred := List.find?_some hq
      simp only [decide_eq_true_eq] at hqpred
      have : q = p := List.inj_on_of_nodup_map hnd hqmem hp
        (by rw [hqpred.1, happ])
      rw [hq, this]

theorem insertAlbumPhotos_all_fresh (c A now : Nat) (pids : List Nat) :
    ∀ db : DB, ownsAlbum db c A →
    (∀ pid ∈ pids, photoExists db pid) →
    (∀ pid ∈ pids, ¬ isMember db A pid) →
    pids.Nodup →
    insertAlbumPhotos c db (pids.map (fun pid => ⟨A, pid, now⟩)) =
      .ok { db with
            album_photos := db.album_photos ++ pids.map (fun pid => ⟨A, pid, now⟩) } := by
  induction pids with
  | nil =>
      intro db _ _ _ _
      simp [insertAlbumPhotos]
  | cons h t ih =>
      intro db hown hex hfresh hnd
      have hchk : albumPhotoInsertCheck db c ⟨A, h, now⟩ = none := by
        unfold albumPhotoInsertCheck
        simp only [not_not]
        rw [if_neg (not_not_intro hown),
            if_neg (not_not_intro (hex h (List.mem_cons_self h t))),
            if_neg (hfresh h (List.mem_cons_self h t))]
      have hstep :
          insertAlbumPhotos c db ((h :: t).map (fun pid => ⟨A, pid, now⟩)) =
            insertAlbumPhotos c
              { db with album_photos := db.album_photos ++ [⟨A, h, now⟩] }
              (t.map (fun pid => ⟨A, pid, now⟩)) := by
        simp [insertAlbumPhotos, hchk]
      rw [hstep]
      have hnd2 := hnd
      rw [List.nodup_cons] at hnd2
      have hrec := ih { db with album_photos := db.album_photos ++ [⟨A, h, now⟩] }
        hown
        (fun pid hpid => hex pid (List.mem_cons_of_mem h hpid))
        (fun pid hpid hm => by
          rcases hm with ⟨ap, hapmem, hapA, happ⟩
          rcases List.mem_append.mp hapmem with hin | hin
          · exact hfresh pid (List.mem_cons_of_mem h hpid) ⟨ap, hin, hapA, happ⟩
          · have hap2 : ap = ⟨A, h, now⟩ := List.mem_singleton.mp hin
            subst hap2
            have hh : h = pid := happ
            exact hnd2.1 (by rw [hh]; exact hpid))
        hnd2.2
      rw [hrec]
      simp

theorem insertAlbumPhotos_dup_error (c A now : Nat) (pids : List Nat) :
    ∀ db : DB, ownsAlbum db c A →
    (∀ pid ∈ pids, photoExists db pid) →
    (∃ pid ∈ pids, isMember db A pid) →
    ∃ e, insertAlbumPhotos c db (pids.map (fun pid => ⟨A, pid, now⟩)) = .error e := by
  induction pids with
  | nil =>
      intro db _ _ hdup
      simp at hdup
  | cons h t ih =>
      intro db hown hex hdup
      by_cases hm : isMember db A h
      · refine ⟨.uniqueViolation, ?_⟩
        have hchk : albumPhotoInsertCheck db c ⟨A, h, now⟩ = some .uniqueViolation := by
          unfold albumPhotoInsertCheck
          rw [if_neg (not_not_intro hown),
              if_neg (not_not_intro (hex h (List.mem_cons_self h t))),
              if_pos hm]
        simp [insertAlbumPhotos, hchk]
      · rcases hdup with ⟨pid, hpid, hpm⟩
        have hpt : pid ∈ t := by
          rcases List.mem_cons.mp hpid with rfl | hpt
          · exact absurd hpm hm
          · exact hpt
        have hchk : albumPhotoInsertCheck db c ⟨A, h, now⟩ = none := by
          unfold albumPhotoInsertCheck
          rw [if_neg (not_not_intro hown),
              if_neg (not_not_intro (hex h (List.mem_cons_self h t))),
              if_neg hm]
        have hstep :
            insertAlbumPhotos c db ((h :: t).map (fun pid2 => ⟨A, pid2, now⟩)) =
              insertAlbumPhotos c
                { db with album_photos := db.album_photos ++ [⟨A, h, now⟩] }
                (t.map (fun pid2 => ⟨A, pid2, now⟩)) := by
          simp [insertAlbumPhotos, hchk]
        rw [hstep]
        refine ih { db with album_photos := db.album_photos ++ [⟨A, h, now⟩] }
          hown
          (fun pid2 hpid2 => hex pid2 (List.mem_cons_of_mem h hpid2))
          ⟨pid, hpt, ?_⟩
        rcases hpm with ⟨ap, hapmem, hapA, happ⟩
        exact ⟨ap, List.mem_append_left _ hapmem, hapA, happ⟩

theorem deletePhotoRows_noMatch (db : DB) (c pid : Nat)
    (h : ∀ p ∈ db.photos, ¬ (p.id = pid ∧ p.user_id = c)) :
    deletePhotoRows db c pid = db := by
  unfold deletePhotoRows
  have hfil : db.photos.filter (fun p => decide (p.id = pid ∧ p.user_id = c)) = [] :=
    List.filter_eq_nil_iff.mpr (fun p hp => by simpa using h p hp)
  rw [hfil]
  dsimp only [List.map_nil]
  have hphotos :
      db.photos.filter (fun p => decide (¬ (p.id = pid ∧ p.user_id = c))) = db.photos :=
    List.filter_eq_self.mpr (fun p hp => decide_eq_true (h p hp))
  have haps :
      db.album_photos.filter
          (fun ap => decide (ap.photo_id ∉ ([] : List Nat))) =
        db.album_photos := by
    refine List.filter_eq_self.mpr (fun ap _ => ?_)
    simp
  have halbums :
      db.albums.map (fun a =>
          if coverHit ([] : List Nat) a.cover_photo_id then
            { a with cover_photo_id := none }
          else a) = db.albums := by
    have hid : ∀ a ∈ db.albums,
        (if coverHit ([] : List Nat) a.cover_photo_id then
          { a with cover_photo_id := none }
        else a) = id a := by
      intro a _
      cases hc : a.cover_photo_id <;> simp [coverHit]
    rw [List.map_congr_left hid, List.map_id]
  rw [hphotos, haps, halbums]

theorem mem_deletePhotoRows_photos (db : DB) (c pid : Nat) (p : Photo) :
    p ∈ (deletePhotoRows db c pid).photos ↔
      p ∈ db.photos ∧ ¬ (p.id = pid ∧ p.user_id = c) := by
  unfold deletePhotoRows
  simp only [List.mem_filter, decide_eq_true_eq]

theorem deletePhotoRows_idempotent (db : DB) (c pid : Nat) :
    deletePhotoRows (deletePhotoRows db c pid) c pid = deletePhotoRows db c pid := by
  refine deletePhotoRows_noMatch _ c pid (fun p hp => ?_)
  exact ((mem_deletePhotoRows_photos db c pid p).mp hp).2

/-- Test fixture: one user owning three photos and one empty album. -/
def exampleDb : DB :=
  { users := [⟨1, "ana"⟩],
    profiles := [⟨1, 1, some "ana", none⟩],
    photos := [⟨1, 1, "url1", none, none, 1⟩, ⟨2, 1, "url2", none, none, 2⟩,
               ⟨3, 1, "url3", none, none, 3⟩],
    albums := [⟨10, 1, "Trip", none, none, 0⟩],
    album_photos := [] }

/-- Test fixture: `exampleDb` after photos 1 and 2 joined album 10, photo 2
most recently. -/
def exampleDbWithMembers : DB :=
  { exampleDb with album_photos := [⟨10, 1, 5⟩, ⟨10, 2, 6⟩] }

/-- Test fixture: two users; the album belongs to user 1 while the only
photo belongs to user 2. -/
def crossDb : DB :=
  { users := [⟨1, "ana"⟩, ⟨2, "bea"⟩],
    profiles := [],
    photos := [⟨2, 2, "w", none, none, 1⟩],
    albums := [⟨10, 1, "A", none, none, 0⟩],
    album_photos := [] }

/-- Test fixture: `exampleDbWithMembers` with the album's cover photo set. -/
def coverDb : DB :=
  { exampleDbWithMembers with albums := [⟨10, 1, "Trip", none, some 2, 0⟩] }

/-- Test fixture: `exampleDbWithMembers` with the cover pointing at photo 1. -/
def deleteDb : DB :=
  { exampleDbWithMembers with albums := [⟨10, 1, "Trip", none, some 1, 0⟩] }

/-- Test fixture: all tables empty. -/
def emptyDb : DB :=
  ⟨[], [], [], [], []⟩

/-- Claim C1 (amended): for an album the caller owns and a duplicate-free
batch of existing photo ids, `addPhotosToAlbum` inserts one AlbumPhoto row
per id when no id in the batch is already a member; when some id is already
a member the single INSERT fails atomically — an error is reported and the
membership is left completely unchanged, rather than the duplicate being a
silent no-op. -/
theorem addPhotosToAlbum_batch_correct (db : DB) (c A now : Nat) (pids : List Nat)
    (hne : pids ≠ []) (hown : ownsAlbum db c A)
    (hex : ∀ pid ∈ pids, photoExists db pid) (hnd : pids.Nodup) :
    ((∀ pid ∈ pids, ¬ isMember db A pid) →
      handleAddPhotos db c A pids now =
        ({ db with album_photos := db.album_photos ++ pids.map (fun pid => ⟨A, pid, now⟩) },
          .ok ())) ∧
    ((∃ pid ∈ pids, isMember db A pid) →
      ∃ e, handleAddPhotos db c A pids now = (db, .error e)) := by
  have hempty : pids.isEmpty = false := by
    cases pids with
    | nil => exact absurd rfl hne
    | cons h t => rfl
  constructor
  · intro hfresh
    have hins := insertAlbumPhotos_all_fresh c A now pids db hown hex hfresh hnd
    simp [handleAddPhotos, hempty, hins]
  · intro hdup
    obtain ⟨e, he⟩ := insertAlbumPhotos_dup_error c A now pids db hown hex hdup
    refine ⟨e, ?_⟩
    simp [handleAddPhotos, hempty, he]

/-- Witness for C1 at the concrete fixture. -/
theorem addPhotosToAlbum_batch_correct_witness :
    (([1, 2] : List Nat) ≠ [] ∧ ownsAlbum exampleDb 1 10 ∧
      (∀ pid ∈ ([1, 2] : List Nat), photoExists exampleDb pid) ∧
      ([1, 2] : List Nat).Nodup) ∧
    (((∀ pid ∈ ([1, 2] : List Nat), ¬ isMember exampleDb 10 pid) →
        handleAddPhotos exampleDb 1 10 [1, 2] 100 =
          ({ exampleDb with
              album_photos :=
                exampleDb.album_photos ++
                  ([1, 2] : List Nat).map (fun pid => ⟨10, pid, 100⟩) },
            .ok ())) ∧
      ((∃ pid ∈ ([1, 2] : List Nat), isMember exampleDb 10 pid) →
        ∃ e, handleAddPhotos exampleDb 1 10 [1, 2] 100 = (exampleDb, .error e))) :=
  ⟨⟨by decide, by decide, by decide, by decide⟩,
    addPhotosToAlbum_batch_correct exampleDb 1 10 100 [1, 2]
      (by decide) (by decide) (by decide) (by decide)⟩

/-- Counterexample to C1 as stated: adding {p1,p2} and then {p1,p3} to the
album does not leave membership {p1,p2,p3} — the second call reports a
uniqueness violation on the repeated p1 and inserts nothing, so p3 never
becomes a member. -/
theorem addPhotosToAlbum_duplicate_errors_cex :
    (handleAddPhotos exampleDb 1 10 [1, 2] 100).2 = .ok () ∧
    isMember (handleAddPhotos exampleDb 1 10 [1, 2] 100).1 10 1 ∧
    isMember (handleAddPhotos exampleDb 1 10 [1, 2] 100).1 10 2 ∧
    (handleAddPhotos (handleAddPhotos exampleDb 1 10 [1, 2] 100).1 1 10 [1, 3] 200).2 =
      Except.error DbError.uniqueViolation ∧
    ¬ isMember
        (handleAddPhotos (handleAddPhotos exampleDb 1 10 [1, 2] 100).1 1 10 [1, 3] 200).1
        10 3 :=
  ⟨rfl, by decide, by decide, rfl, by decide⟩

/-- Claim C2 (amended): the `album_photos` insert checks only that the
caller owns the referenced album, that the photo row exists, and that the
pair is not already present — the photo's owner is never consulted, so
adding a photo owned by a different user to one's own album is accepted and
creates the membership row (no Forbidden rejection exists in the code). -/
theorem addPhotosToAlbum_crossUser_allowed (db : DB) (c A pid now : Nat)
    (hown : ownsAlbum db c A) (hex : photoExists db pid)
    (hfresh : ¬ isMember db A pid) :
    handleAddPhotos db c A [pid] now =
      ({ db with album_photos := db.album_photos ++ [⟨A, pid, now⟩] }, .ok ()) := by
  have hins := insertAlbumPhotos_all_fresh c A now [pid] db hown
    (by simpa using hex) (by simpa using hfresh) (List.nodup_singleton pid)
  simp only [List.map_cons, List.map_nil] at hins
  simp [handleAddPhotos, hins]

/-- Witness for C2 at the cross-user fixture: user 1 owns album 10, photo 2
belongs to user 2, and the add succeeds. -/
theorem addPhotosToAlbum_crossUser_allowed_witness :
    (ownsAlbum crossDb 1 10 ∧ photoExists crossDb 2 ∧ ¬ isMember crossDb 10 2) ∧
    handleAddPhotos crossDb 1 10 [2] 5 =
      ({ crossDb with album_photos := crossDb.album_photos ++ [⟨10, 2, 5⟩] }, .ok ()) :=
  ⟨⟨by decide, by decide, by decide⟩,
    addPhotosToAlbum_crossUser_allowed crossDb 1 10 2 5 (by decide) (by decide) (by decide)⟩

/-- Counterexample to C2 as stated: in `crossDb` photo 2 is owned by user 2
while album 10 is owned by the calling user 1, yet
`addPhotosToAlbum(1, 10, {2})` succeeds and the (10, 2) membership row is
created — it is not rejected with Forbidden and the row does appear. -/
theorem addPhotosToAlbum_crossUser_cex :
    (∀ p ∈ crossDb.photos, p.id = 2 → p.user_id ≠ 1) ∧
    ownsAlbum crossDb 1 10 ∧
    (handleAddPhotos crossDb 1 10 [2] 5).2 = .ok () ∧
    isMember (handleAddPhotos crossDb 1 10 [2] 5).1 10 2 :=
  ⟨by decide, by decide, rfl, by decide⟩

/-- Claim C3 (confirmed): the available-photos list and the album-photos
list are disjoint, and together they are exactly the photos owned by the
caller (assuming the primary-key invariant that photo ids are unique). -/
theorem availablePhotos_partition_ownerPhotos (db : DB) (u A : Nat)
    (hnd : (db.photos.map Photo.id).Nodup) :
    (∀ p, ¬ (p ∈ listAvailablePhotosForAlbum db u A ∧ p ∈ listAlbumPhotos db u A)) ∧
    (∀ p, (p ∈ listAvailablePhotosForAlbum db u A ∨ p ∈ listAlbumPhotos db u A) ↔
      p ∈ db.photos ∧ p.user_id = u) := by
  have hmemav : ∀ p, p ∈ listAvailablePhotosForAlbum db u A ↔
      p ∈ db.photos ∧ p.user_id = u ∧
        p.id ∉ (listAlbumPhotos db u A).map Photo.id := by
    intro p
    unfold listAvailablePhotosForAlbum
    simp only [List.mem_filter, decide_eq_true_eq]
    tauto
  constructor
  · rintro p ⟨hav, hmem⟩
    have h1 := (hmemav p).mp hav
    exact h1.2.2 (List.mem_map_of_mem Photo.id hmem)
  · intro p
    constructor
    · rintro (hav | hmem)
      · have h1 := (hmemav p).mp hav
        exact ⟨h1.1, h1.2.1⟩
      · have h1 := mem_listAlbumPhotos_mp db u A p hmem
        exact ⟨h1.1, h1.2.1⟩
    · rintro ⟨hp, hu⟩
      by_cases hid : p.id ∈ (listAlbumPhotos db u A).map Photo.id
      · right
        rcases List.mem_map.mp hid with ⟨q, hq, hqid⟩
        have hqmem := mem_listAlbumPhotos_mp db u A q hq
        have hqp : q = p := List.inj_on_of_nodup_map hnd hqmem.1 hp hqid
        exact hqp ▸ hq
      · left
        exact (hmemav p).mpr ⟨hp, hu, hid⟩

/-- Witness for C3 at the concrete fixture. -/
theorem availablePhotos_partition_ownerPhotos_witness :
    (exampleDbWithMembers.photos.map Photo.id).Nodup ∧
    ((∀ p, ¬ (p ∈ listAvailablePhotosForAlbum exampleDbWithMembers 1 10 ∧
        p ∈ listAlbumPhotos exampleDbWithMembers 1 10)) ∧
      (∀ p, (p ∈ listAvailablePhotosForAlbum exampleDbWithMembers 1 10 ∨
          p ∈ listAlbumPhotos exampleDbWithMembers 1 10) ↔
        p ∈ exampleDbWithMembers.photos ∧ p.user_id = 1)) :=
  ⟨by decide, availablePhotos_partition_ownerPhotos exampleDbWithMembers 1 10 (by decide)⟩

/-- Claim C7 (amended): `listAlbumPhotos(albumId, owner)` returns exactly
the member photos of the album that the caller owns and can see — but in
the order of the membership table, since the query requests no ordering;
it is not sorted most-recently-added first. -/
theorem listAlbumPhotos_membership_characterization (db : DB) (u A : Nat)
    (hnd : (db.photos.map Photo.id).Nodup) :
    ∀ p, p ∈ listAlbumPhotos db u A ↔
      p ∈ db.photos ∧ p.user_id = u ∧ ownsAlbum db u A ∧ isMember db A p.id :=
  fun p => mem_listAlbumPhotos_iff db u A hnd p

/-- Witness for C7 at the concrete fixture. -/
theorem listAlbumPhotos_membership_characterization_witness :
    (exampleDbWithMembers.photos.map Photo.id).Nodup ∧
    (∀ p, p ∈ listAlbumPhotos exampleDbWithMembers 1 10 ↔
      p ∈ exampleDbWithMembers.photos ∧ p.user_id = 1 ∧
        ownsAlbum exampleDbWithMembers 1 10 ∧ isMember exampleDbWithMembers 10 p.id) :=
  ⟨by decide,
    listAlbumPhotos_membership_characterization exampleDbWithMembers 1 10 (by decide)⟩

/-- Counterexample to C7 as stated: photo 2 joined album 10 after photo 1
(added_at 6 versus 5), yet the listing returns photo 1 first — the result
differs from the spec's most-recently-added-first ordering. -/
theorem listAlbumPhotos_order_cex :
    (listAlbumPhotos exampleDbWithMembers 1 10).map Photo.id = [1, 2] ∧
    (specListAlbumPhotos exampleDbWithMembers 1 10).map Photo.id = [2, 1] ∧
    listAlbumPhotos exampleDbWithMembers 1 10 ≠
      specListAlbumPhotos exampleDbWithMembers 1 10 :=
  ⟨rfl, rfl, by decide⟩

/-- Claim C8 (amended): `listAlbums(owner)` returns exactly the albums the
caller owns, most-recently-created first; the representative cover shown
for each album is the head of its membership join in table order — the
earliest-listed member photo's url, or none when the album is empty —
and `cover_photo_id` plays no part in it. -/
theorem loadAlbums_sorted_and_cover_from_join (db : DB) (u : Nat) :
    ((loadAlbums db u).map AlbumView.album).Pairwise
        (fun x y => y.created_at ≤ x.created_at) ∧
    (∀ v ∈ loadAlbums db u, v.album ∈ db.albums ∧ v.album.user_id = u ∧
        displayedCover v = (memberUrls db u v.album.id).head?) ∧
    (∀ a ∈ db.albums, a.user_id = u → ∃ v ∈ loadAlbums db u, v.album = a) := by
  refine ⟨?_, ?_, ?_⟩
  · unfold loadAlbums
    rw [List.map_map, List.pairwise_map]
    have hpw := pairwise_sortBy (fun x y : Album => decide (y.created_at ≤ x.created_at))
      (fun x y => by
        rcases Nat.le_total y.created_at x.created_at with h | h
        · exact Or.inl (decide_eq_true h)
        · exact Or.inr (decide_eq_true h))
      (fun x y z hxy hyz =>
        decide_eq_true (Nat.le_trans (of_decide_eq_true hyz) (of_decide_eq_true hxy)))
      (db.albums.filter (fun a => decide (a.user_id = u)))
    exact hpw.imp (fun h => of_decide_eq_true h)
  · intro v hv
    unfold loadAlbums at hv
    rcases List.mem_map.mp hv with ⟨a, ha, rfl⟩
    have ha2 := (mem_sortBy _ _ a).mp ha
    rcases List.mem_filter.mp ha2 with ⟨hmem, hcond⟩
    exact ⟨hmem, of_decide_eq_true hcond, rfl⟩
  · intro a ha hu
    refine ⟨⟨a, memberUrls db u a.id⟩, ?_, rfl⟩
    unfold loadAlbums
    exact List.mem_map_of_mem _
      ((mem_sortBy _ _ a).mpr (List.mem_filter.mpr ⟨ha, decide_eq_true hu⟩))

/-- Counterexample to C8 as stated: in `coverDb` the album's
`cover_photo_id` is 2 and photo 2 is still a member, so the spec's cover
rule picks url2; the code displays the first row of the unordered join,
photo 1's url1, never consulting `cover_photo_id`. -/
theorem loadAlbums_cover_ignores_cover_cex :
    coverDb.albums.map Album.cover_photo_id = [some 2] ∧
    isMember coverDb 10 2 ∧
    (loadAlbums coverDb 1).map displayedCover = [some "url1"] ∧
    coverDb.albums.map (specCover coverDb 1) = [some "url2"] ∧
    ([some "url1"] : List (Option String)) ≠ [some "url2"] :=
  ⟨rfl, by decide, rfl, rfl, by decide⟩


theorem deletePhotoRows_clean (db : DB) (c pid : Nat)
    (hnd : (db.photos.map Photo.id).Nodup)
    (hmem : ∃ q ∈ db.photos, q.id = pid ∧ q.user_id = c) :
    ¬ photoExists (deletePhotoRows db c pid) pid ∧
    (∀ ap ∈ (deletePhotoRows db c pid).album_photos, ap.photo_id ≠ pid) ∧
    (∀ a ∈ (deletePhotoRows db c pid).albums, a.cover_photo_id ≠ some pid) := by
  rcases hmem with ⟨q, hq, hqid, hqu⟩
  have hpidIn : pid ∈ (db.photos.filter
      (fun p => decide (p.id = pid ∧ p.user_id = c))).map Photo.id := by
    have hqf : q ∈ db.photos.filter (fun p => decide (p.id = pid ∧ p.user_id = c)) :=
      List.mem_filter.mpr ⟨hq, decide_eq_true ⟨hqid, hqu⟩⟩
    simpa [hqid] using List.mem_map_of_mem Photo.id hqf
  refine ⟨?_, ?_, ?_⟩
  · rintro ⟨p, hp, hpid⟩
    have h2 := (mem_deletePhotoRows_photos db c pid p).mp hp
    have hqp : q = p := List.inj_on_of_nodup_map hnd hq h2.1 (by rw [hqid, hpid])
    exact h2.2 ⟨hpid, hqp ▸ hqu⟩
  · intro ap hap
    have hap2 : ap ∈ db.album_photos.filter
        (fun ap2 => decide (ap2.photo_id ∉ (db.photos.filter
          (fun p => decide (p.id = pid ∧ p.user_id = c))).map Photo.id)) := hap
    have hnotin := of_decide_eq_true (List.mem_filter.mp hap2).2
    intro heq
    exact hnotin (by rw [heq]; exact hpidIn)
  · intro a ha
    have ha2 : a ∈ db.albums.map (fun a0 =>
        if coverHit ((db.photos.filter
            (fun p => decide (p.id = pid ∧ p.user_id = c))).map Photo.id)
            a0.cover_photo_id then
          { a0 with cover_photo_id := none }
        else a0) := ha
    rcases List.mem_map.mp ha2 with ⟨a0, _, rfl⟩
    cases hc : a0.cover_photo_id with
    | none => simp [coverHit, hc]
    | some c2 =>
        by_cases hin : c2 ∈ (db.photos.filter
            (fun p => decide (p.id = pid ∧ p.user_id = c))).map Photo.id
        · simp only [coverHit, hc]
          rw [if_pos (decide_eq_true hin)]
          simp
        · simp only [coverHit, hc]
          rw [if_neg (by simpa using hin)]
          rw [hc]
          intro heq
          apply hin
          rw [Option.some_inj.mp heq]
          exact hpidIn

/-- Claim C4 (amended): deleting an owned photo removes its row, cascades
away every membership row referencing it and clears any album cover that
pointed at it, and the reported result is success; repeating the delete on
the already-deleted photo is a silent success no-op — the zero-row DELETE
leaves the database unchanged and reports no error at all (there is no
NotFound error), and in particular it does not crash. -/
theorem deletePhoto_cascades_and_repeat_silent (db : DB) (st : List String)
    (c pid : Nat) (url : String) (b : Bool)
    (hnd : (db.photos.map Photo.id).Nodup)
    (hmem : ∃ q ∈ db.photos, q.id = pid ∧ q.user_id = c) :
    ¬ photoExists (handleDelete db st c pid url b).1 pid ∧
    (∀ ap ∈ (handleDelete db st c pid url b).1.album_photos, ap.photo_id ≠ pid) ∧
    (∀ a ∈ (handleDelete db st c pid url b).1.albums, a.cover_photo_id ≠ some pid) ∧
    (handleDelete db st c pid url b).2.2 = .ok () ∧
    (∀ st2 b2,
      (handleDelete (handleDelete db st c pid url b).1 st2 c pid url b2).1 =
        (handleDelete db st c pid url b).1 ∧
      (handleDelete (handleDelete db st c pid url b).1 st2 c pid url b2).2.2 =
        .ok ()) := by
  have hclean := deletePhotoRows_clean db c pid hnd hmem
  refine ⟨hclean.1, hclean.2.1, hclean.2.2, rfl, ?_⟩
  intro st2 b2
  constructor
  · show deletePhotoRows (deletePhotoRows db c pid) c pid = deletePhotoRows db c pid
    exact deletePhotoRows_idempotent db c pid
  · rfl

/-- Witness for C4 at the concrete fixture. -/
theorem deletePhoto_cascades_and_repeat_silent_witness :
    ((deleteDb.photos.map Photo.id).Nodup ∧
      (∃ q ∈ deleteDb.photos, q.id = 1 ∧ q.user_id = 1)) ∧
    (¬ photoExists (handleDelete deleteDb [] 1 1 "url1" true).1 1 ∧
      (∀ ap ∈ (handleDelete deleteDb [] 1 1 "url1" true).1.album_photos,
        ap.photo_id ≠ 1) ∧
      (∀ a ∈ (handleDelete deleteDb [] 1 1 "url1" true).1.albums,
        a.cover_photo_id ≠ some 1) ∧
      (handleDelete deleteDb [] 1 1 "url1" true).2.2 = .ok () ∧
      (∀ st2 b2,
        (handleDelete (handleDelete deleteDb [] 1 1 "url1" true).1 st2 1 1 "url1" b2).1 =
          (handleDelete deleteDb [] 1 1 "url1" true).1 ∧
        (handleDelete (handleDelete deleteDb [] 1 1 "url1" true).1 st2 1 1 "url1" b2).2.2 =
          .ok ())) :=
  ⟨⟨by decide, by decide⟩,
    deletePhoto_cascades_and_repeat_silent deleteDb [] 1 1 "url1" true
      (by decide) (by decide)⟩

/-- Counterexample to C4 as stated: after photo 1 is deleted, repeating the
delete reports plain success — not a NotFound error. -/
theorem deletePhoto_repeat_no_error_cex :
    photoExists deleteDb 1 ∧
    ¬ photoExists (handleDelete deleteDb [] 1 1 "url1" true).1 1 ∧
    (handleDelete (handleDelete deleteDb [] 1 1 "url1" true).1 [] 1 1 "url1" true).2.2 =
      .ok () ∧
    (∀ e : DbError,
      (handleDelete (handleDelete deleteDb [] 1 1 "url1" true).1 [] 1 1 "url1" true).2.2 ≠
        .error e) :=
  ⟨by decide, by decide, rfl, fun e h => Except.noConfusion h⟩

/-- Claim C5 (confirmed): deleting an owned album removes the album row and
every membership row of that album, reports success, leaves the photos
table untouched, and every photo remains listable by its owner. -/
theorem deleteAlbum_preserves_photos (db : DB) (c A : Nat)
    (hnd : (db.albums.map Album.id).Nodup)
    (hmem : ∃ a ∈ db.albums, a.id = A ∧ a.user_id = c) :
    (handleDeleteAlbum db c A).1.photos = db.photos ∧
    (∀ a ∈ (handleDeleteAlbum db c A).1.albums, a.id ≠ A) ∧
    (∀ ap ∈ (handleDeleteAlbum db c A).1.album_photos, ap.album_id ≠ A) ∧
    (∀ p ∈ db.photos, p ∈ loadPhotos (handleDeleteAlbum db c A).1 p.user_id) ∧
    (handleDeleteAlbum db c A).2 = .ok () := by
  rcases hmem with ⟨a, ha, haid, hau⟩
  have hAin : A ∈ (db.albums.filter
      (fun b2 => decide (b2.id = A ∧ b2.user_id = c))).map Album.id := by
    have haf : a ∈ db.albums.filter (fun b2 => decide (b2.id = A ∧ b2.user_id = c)) :=
      List.mem_filter.mpr ⟨ha, decide_eq_true ⟨haid, hau⟩⟩
    simpa [haid] using List.mem_map_of_mem Album.id haf
  refine ⟨rfl, ?_, ?_, ?_, rfl⟩
  · intro b hb
    have hb2 : b ∈ db.albums.filter
        (fun b3 => decide (¬ (b3.id = A ∧ b3.user_id = c))) := hb
    have hcond := of_decide_eq_true (List.mem_filter.mp hb2).2
    intro hbid
    have hab : a = b := List.inj_on_of_nodup_map hnd ha (List.mem_filter.mp hb2).1
      (by rw [haid, hbid])
    exact hcond ⟨hbid, hab ▸ hau⟩
  · intro ap hap
    have hap2 : ap ∈ db.album_photos.filter
        (fun ap2 => decide (ap2.album_id ∉ (db.albums.filter
          (fun b2 => decide (b2.id = A ∧ b2.user_id = c))).map Album.id)) := hap
    have hnotin := of_decide_eq_true (List.mem_filter.mp hap2).2
    intro heq
    exact hnotin (by rw [heq]; exact hAin)
  · intro p hp
    exact (mem_sortBy _ _ p).mpr (List.mem_filter.mpr ⟨hp, decide_eq_true rfl⟩)

/-- Witness for C5 at the concrete fixture. -/
theorem deleteAlbum_preserves_photos_witness :
    ((exampleDbWithMembers.albums.map Album.id).Nodup ∧
      (∃ a ∈ exampleDbWithMembers.albums, a.id = 10 ∧ a.user_id = 1)) ∧
    ((handleDeleteAlbum exampleDbWithMembers 1 10).1.photos =
        exampleDbWithMembers.photos ∧
      (∀ a ∈ (handleDeleteAlbum exampleDbWithMembers 1 10).1.albums, a.id ≠ 10) ∧
      (∀ ap ∈ (handleDeleteAlbum exampleDbWithMembers 1 10).1.album_photos,
        ap.album_id ≠ 10) ∧
      (∀ p ∈ exampleDbWithMembers.photos,
        p ∈ loadPhotos (handleDeleteAlbum exampleDbWithMembers 1 10).1 p.user_id) ∧
      (handleDeleteAlbum exampleDbWithMembers 1 10).2 = .ok ()) :=
  ⟨⟨by decide, by decide⟩,
    deleteAlbum_preserves_photos exampleDbWithMembers 1 10 (by decide) (by decide)⟩

/-- Claim C6 (confirmed): creating a new identity inserts, synchronously
through the `on_auth_user_created` trigger, exactly one profile row keyed by
the user's id, with display_name defaulted to the account email and
avatar_url unset; re-authentication changes nothing, and a second signup
attempt for the same identity fails on the uniqueness invariant without
touching the tables. -/
theorem signup_creates_unique_profile (db : DB) (u : AuthUser) (newProfileId : Nat)
    (hfk : ∀ pr ∈ db.profiles, ∃ v ∈ db.users, v.id = pr.user_id)
    (hfresh : ∀ v ∈ db.users, v.id ≠ u.id) :
    (signUpUser db u newProfileId).2 = .ok () ∧
    ((signUpUser db u newProfileId).1.profiles.filter
        (fun pr => decide (pr.user_id = u.id))).length = 1 ∧
    (∀ pr ∈ (signUpUser db u newProfileId).1.profiles, pr.user_id = u.id →
      pr.display_name = some u.email ∧ pr.avatar_url = none) ∧
    authenticate (signUpUser db u newProfileId).1 u.id =
      (signUpUser db u newProfileId).1 ∧
    (signUpUser (signUpUser db u newProfileId).1 u newProfileId).2 =
      .error .uniqueViolation ∧
    (signUpUser (signUpUser db u newProfileId).1 u newProfileId).1 =
      (signUpUser db u newProfileId).1 := by
  have hnoprof : ∀ pr ∈ db.profiles, ¬ pr.user_id = u.id := by
    intro pr hpr heq
    rcases hfk pr hpr with ⟨v, hv, hvid⟩
    exact hfresh v hv (by rw [hvid, heq])
  have husers : db.users.any (fun v => decide (v.id = u.id)) = false :=
    List.any_eq_false.mpr (fun v hv => by simpa using hfresh v hv)
  have hprof : db.profiles.any (fun pr => decide (pr.user_id = u.id)) = false :=
    List.any_eq_false.mpr (fun pr hpr => by simpa using hnoprof pr hpr)
  have hsign : signUpUser db u newProfileId =
      ({ db with
          users := db.users ++ [u]
          profiles := db.profiles ++ [⟨newProfileId, u.id, some u.email, none⟩] },
        .ok ()) := by
    unfold signUpUser handle_new_user
    rw [husers]
    simp [hprof]
  have hany2 : ((db.users ++ [u]).any (fun v => decide (v.id = u.id))) = true :=
    List.any_eq_true.mpr ⟨u, List.mem_append_right _ (List.mem_singleton_self u), by simp⟩
  have hfilter : (db.profiles ++
        [(⟨newProfileId, u.id, some u.email, none⟩ : ProfileRow)]).filter
      (fun pr => decide (pr.user_id = u.id)) =
      [⟨newProfileId, u.id, some u.email, none⟩] := by
    rw [List.filter_append,
      List.filter_eq_nil_iff.mpr (fun pr hpr => by simpa using hnoprof pr hpr)]
    simp
  refine ⟨by rw [hsign], ?_, ?_, ?_, ?_, ?_⟩
  · rw [hsign]
    show ((db.profiles ++ [(⟨newProfileId, u.id, some u.email, none⟩ : ProfileRow)]).filter
      (fun pr => decide (pr.user_id = u.id))).length = 1
    rw [hfilter]
    rfl
  · rw [hsign]
    intro pr hpr hpru
    rcases List.mem_append.mp hpr with hold | hnew
    · exact absurd hpru (hnoprof pr hold)
    · have : pr = ⟨newProfileId, u.id, some u.email, none⟩ := List.mem_singleton.mp hnew
      subst this
      exact ⟨rfl, rfl⟩
  · rfl
  · rw [hsign]
    show (signUpUser { db with
        users := db.users ++ [u]
        profiles := db.profiles ++ [⟨newProfileId, u.id, some u.email, none⟩] }
        u newProfileId).2 = .error .uniqueViolation
    unfold signUpUser
    rw [hany2]
    rfl
  · rw [hsign]
    show (signUpUser { db with
        users := db.users ++ [u]
        profiles := db.profiles ++ [⟨newProfileId, u.id, some u.email, none⟩] }
        u newProfileId).1 = _
    unfold signUpUser
    rw [hany2]
    rfl

/-- Witness for C6 at the empty database. -/
theorem signup_creates_unique_profile_witness :
    ((∀ pr ∈ emptyDb.profiles, ∃ v ∈ emptyDb.users, v.id = pr.user_id) ∧
      (∀ v ∈ emptyDb.users, v.id ≠ 1)) ∧
    ((signUpUser emptyDb ⟨1, "ana@mail"⟩ 7).2 = .ok () ∧
      ((signUpUser emptyDb ⟨1, "ana@mail"⟩ 7).1.profiles.filter
          (fun pr => decide (pr.user_id = 1))).length = 1 ∧
      (∀ pr ∈ (signUpUser emptyDb ⟨1, "ana@mail"⟩ 7).1.profiles, pr.user_id = 1 →
        pr.display_name = some "ana@mail" ∧ pr.avatar_url = none) ∧
      authenticate (signUpUser emptyDb ⟨1, "ana@mail"⟩ 7).1 1 =
        (signUpUser emptyDb ⟨1, "ana@mail"⟩ 7).1 ∧
      (signUpUser (signUpUser emptyDb ⟨1, "ana@mail"⟩ 7).1 ⟨1, "ana@mail"⟩ 7).2 =
        .error .uniqueViolation ∧
      (signUpUser (signUpUser emptyDb ⟨1, "ana@mail"⟩ 7).1 ⟨1, "ana@mail"⟩ 7).1 =
        (signUpUser emptyDb ⟨1, "ana@mail"⟩ 7).1) :=
  ⟨⟨by decide, by decide⟩,
    signup_creates_unique_profile emptyDb ⟨1, "ana@mail"⟩ 7 (by decide) (by decide)⟩

/-- Claim C9 (amended): `createAlbum` performs no name validation — for any
name string, the empty string included, the insert succeeds and the album
row is created with that name and listed for its owner; only a null name is
excluded by the schema, and the sole empty-name guard in the repository is
the HTML `required` attribute on the form input, not a data-layer
ValidationError. -/
theorem createAlbum_accepts_any_name (db : DB) (c : Nat) (name : String)
    (desc : Option String) (newId now : Nat)
    (hfresh : ∀ a ∈ db.albums, a.id ≠ newId) :
    handleCreate db c name desc newId now =
      ({ db with albums := db.albums ++ [⟨newId, c, name, desc, none, now⟩] }, .ok ()) ∧
    (⟨newId, c, name, desc, none, now⟩ : Album) ∈
      (handleCreate db c name desc newId now).1.albums ∧
    (∃ v ∈ loadAlbums (handleCreate db c name desc newId now).1 c,
      v.album = (⟨newId, c, name, desc, none, now⟩ : Album)) := by
  have hany : db.albums.any (fun a => decide (a.id = newId)) = false :=
    List.any_eq_false.mpr (fun a ha => by simpa using hfresh a ha)
  have h1 : handleCreate db c name desc newId now =
      ({ db with albums := db.albums ++ [⟨newId, c, name, desc, none, now⟩] }, .ok ()) := by
    unfold handleCreate
    rw [hany]
    rfl
  refine ⟨h1, ?_, ?_⟩
  · rw [h1]
    exact List.mem_append_right _ (List.mem_singleton_self _)
  · rw [h1]
    refine ⟨⟨⟨newId, c, name, desc, none, now⟩,
        memberUrls { db with albums := db.albums ++ [⟨newId, c, name, desc, none, now⟩] }
          c newId⟩, ?_, rfl⟩
    unfold loadAlbums
    exact List.mem_map_of_mem _
      ((mem_sortBy _ _ _).mpr (List.mem_filter.mpr
        ⟨List.mem_append_right _ (List.mem_singleton_self _), decide_eq_true rfl⟩))

/-- Witness for C9 at the empty database, with the empty name. -/
theorem createAlbum_accepts_any_name_witness :
    (∀ a ∈ emptyDb.albums, a.id ≠ 10) ∧
    (handleCreate emptyDb 1 "" none 10 5 =
        ({ emptyDb with albums := emptyDb.albums ++ [⟨10, 1, "", none, none, 5⟩] },
          .ok ()) ∧
      (⟨10, 1, "", none, none, 5⟩ : Album) ∈ (handleCreate emptyDb 1 "" none 10 5).1.albums ∧
      (∃ v ∈ loadAlbums (handleCreate emptyDb 1 "" none 10 5).1 1,
        v.album = (⟨10, 1, "", none, none, 5⟩ : Album))) :=
  ⟨by decide, createAlbum_accepts_any_name emptyDb 1 "" none 10 5 (by decide)⟩

/-- Counterexample to C9 as stated: calling `createAlbum` with the empty
name succeeds and creates an Album row whose name is the empty string — no
ValidationError is raised. -/
theorem createAlbum_empty_name_cex :
    (handleCreate emptyDb 1 "" none 10 5).2 = .ok () ∧
    (handleCreate emptyDb 1 "" none 10 5).1.albums.map Album.name = [""] ∧
    (∃ a ∈ (handleCreate emptyDb 1 "" none 10 5).1.albums, a.name = "") :=
  ⟨rfl, rfl, by decide⟩

/-- Claim C10 (confirmed): in `handleDelete` the blob-store removal result
is discarded — the database delete is issued and its rows removed whether
the storage call succeeded or failed, the reported outcome is success in
both cases, and a failed storage call leaves the blob store unchanged
without surfacing any error. -/
theorem photoDelete_storage_result_discarded (db : DB) (st : List String)
    (c pid : Nat) (url : String) :
    (handleDelete db st c pid url true).1 = deletePhotoRows db c pid ∧
    (handleDelete db st c pid url false).1 = deletePhotoRows db c pid ∧
    (handleDelete db st c pid url true).2.2 = .ok () ∧
    (handleDelete db st c pid url false).2.2 = .ok () ∧
    (handleDelete db st c pid url false).2.1 = st :=
  ⟨rfl, rfl, rfl, rfl, rfl⟩
